import Mathlib

/-!
JobQueue engine: shallow embedding and verification.

A shallow embedding of the JobQueue subsystem (packages `store` and `worker`):
the in-memory status table (`MemoryStore`), the bounded job channel, the worker
pool (`Pool`) with its non-blocking `Submit`, graceful `Stop`, and the per-job
`processJob` deadline race.  Timestamps (`time.Now()`) are passed in as abstract
`Nat` instants; Go `int` / `time.Duration` fields are `Int`.  Goroutine
interleaving is sequentialized: distinct job identifiers address disjoint store
keys, so the per-identifier effect of draining the queue is independent of the
interleaving of workers.
-/

namespace JobQueue

/-- Status of a job (`store.Status`): the five states. -/
inductive Status where
  | queued
  | running
  | completed
  | failed
  | cancelled
deriving DecidableEq, Repr

/-- Predicate for the terminal states `completed`, `failed` and `cancelled`. -/
def Status.isTerminal : Status → Bool
  | .completed => true
  | .failed => true
  | .cancelled => true
  | _ => false

/-- Job record (`store.Job`): identifier, task payload, status, last error text, timestamps. -/
structure Job where
  id : String
  task : String
  status : Status
  error : String
  createdAt : Nat
  updatedAt : Nat
deriving DecidableEq, Repr

/-- Error text of `store.ErrNotFound`: "job not found". -/
def ErrNotFound : String := "job not found"

/-- Lookup in the Go map `map[string]*Job`, modelled as an association list. -/
def mapLookup : List (String × Job) → String → Option Job
  | [], _ => none
  | (k, v) :: rest, id => if k = id then some v else mapLookup rest id

/-- Insert-or-overwrite in the Go map `map[string]*Job` (`s.jobs[id] = job`). -/
def mapInsert : List (String × Job) → String → Job → List (String × Job)
  | [], id, j => [(id, j)]
  | (k, v) :: rest, id, j =>
      if k = id then (id, j) :: rest else (k, v) :: mapInsert rest id j

/-- Store `store.MemoryStore`: the jobs map (the RWMutex serializes access; operations
below are its linearized effects). -/
structure MemoryStore where
  jobs : List (String × Job)
deriving DecidableEq, Repr

/-- Constructor `store.New`: an empty store. -/
def MemoryStore.new : MemoryStore := ⟨[]⟩

/-- Operation `store.Save`: `s.jobs[job.ID] = job`. -/
def MemoryStore.Save (s : MemoryStore) (job : Job) : MemoryStore :=
  ⟨mapInsert s.jobs job.id job⟩

/-- Operation `store.Get`: returns a value copy (`*job`) of the record, or `ErrNotFound`. -/
def MemoryStore.Get (s : MemoryStore) (id : String) : Except String Job :=
  match mapLookup s.jobs id with
  | none => .error ErrNotFound
  | some job => .ok job

/-- Operation `store.UpdateStatus`: overwrite status, error text and update timestamp of
the record at `id`, or return `ErrNotFound` leaving the table untouched.
`now` is the `time.Now()` instant of the call.  Result: (new table, error). -/
def MemoryStore.UpdateStatus (s : MemoryStore) (id : String) (status : Status)
    (errMsg : String) (now : Nat) : MemoryStore × Option String :=
  match mapLookup s.jobs id with
  | none => (s, some ErrNotFound)
  | some job =>
      (⟨mapInsert s.jobs id { job with status := status, error := errMsg, updatedAt := now }⟩,
       none)

/-- Operation `store.List`: a snapshot of value copies of every record (Go map iteration
order is unspecified; the association-list order is one such order). -/
def MemoryStore.ListJobs (s : MemoryStore) : List Job := s.jobs.map Prod.snd

/-- Configuration `worker.Config`: NumWorkers and QueueSize are Go `int`; JobTimeout is a
`time.Duration` in nanoseconds. -/
structure Config where
  numWorkers : Int
  queueSize : Int
  jobTimeout : Int
deriving DecidableEq, Repr

/-- Defaults `worker.DefaultConfig`: 3 workers, queue 100, timeout 30s. -/
def DefaultConfig : Config :=
  { numWorkers := 3, queueSize := 100, jobTimeout := 30 * 1000000000 }

/-- A buffered Go channel of job identifiers: FIFO buffer, capacity, closed flag. -/
structure Chan where
  buf : List String
  cap : Int
  closed : Bool
deriving DecidableEq, Repr

/-- Result of a non-blocking channel send. -/
inductive SendResult where
  | sent
  | full
  | panicked
deriving DecidableEq, Repr

/-- A non-blocking send, as in `Submit`'s `select` with a `default` branch.
Go semantics: a send on a closed channel is a ready communication that panics
when chosen, so `select` picks it over `default`; otherwise the send succeeds
exactly when the buffer is below capacity, else `default` fires. -/
def Chan.trySend (c : Chan) (x : String) : SendResult × Chan :=
  if c.closed then (.panicked, c)
  else if (c.buf.length : Int) < c.cap then (.sent, { c with buf := c.buf ++ [x] })
  else (.full, c)

/-- Pool `worker.Pool`: job channel, status table, configuration, and the number of
live worker goroutines (the `sync.WaitGroup` count). -/
structure Pool where
  jobs : Chan
  store : MemoryStore
  cfg : Config
  workers : Nat
deriving DecidableEq, Repr

/-- Constructor `worker.NewPool`: makes the buffered channel (`make(chan string, cfg.QueueSize)`)
and starts the workers (the loop `for i := 1; i <= cfg.NumWorkers; i++` spawns
`cfg.numWorkers.toNat` goroutines).  `make` panics at run time for a negative
size ("makechan: size out of range"), modelled as `none`; beyond that no
configuration validation is performed and no error can be returned. -/
def NewPool (s : MemoryStore) (cfg : Config) : Option Pool :=
  if cfg.queueSize < 0 then none
  else some
    { jobs := { buf := [], cap := cfg.queueSize, closed := false }
      store := s
      cfg := cfg
      workers := cfg.numWorkers.toNat }

/-- Operation `Pool.Submit`: the non-blocking select on `p.jobs <- jobID`.  `none` models
the run-time panic of a send on a closed channel. -/
def Pool.Submit (p : Pool) (jobID : String) : Option (Bool × Pool) :=
  match p.jobs.trySend jobID with
  | (.sent, c) => some (true, { p with jobs := c })
  | (.full, c) => some (false, { p with jobs := c })
  | (.panicked, _) => none

/-- Outcome of racing `executeTask` against the context deadline in `processJob`:
`done res` — the executor sent on `done` first (`none` = success, `some e` = the
error's text); `timeout ev` — `ctx.Done()` fired first, `ev` being the abandoned
executor's eventual result, which lands in the buffered `done` channel and is
never read. -/
inductive ExecOutcome where
  | done (res : Option String)
  | timeout (eventual : Option String)
deriving DecidableEq, Repr

/-- The terminal status `processJob` records for an outcome. -/
def ExecOutcome.status : ExecOutcome → Status
  | .done none => .completed
  | .done (some _) => .failed
  | .timeout _ => .cancelled

/-- The error text `processJob` records for an outcome. -/
def ExecOutcome.errText : ExecOutcome → String
  | .done none => ""
  | .done (some e) => e
  | .timeout _ => "context deadline exceeded"

/-- Text of `ctx.Err().Error()` once the deadline has elapsed. -/
def DeadlineExceeded : String := "context deadline exceeded"

/-- One `p.store.UpdateStatus` call inside `processJob`, with the returned error
discarded (`_ =` in the source) and the update appended to an observation log. -/
def updateLogged (s : MemoryStore) (log : List (Status × String)) (id : String)
    (st : Status) (msg : String) (t : Nat) : MemoryStore × List (Status × String) :=
  ((s.UpdateStatus id st msg t).1, log ++ [(st, msg)])

/-- Worker body `Pool.processJob`: set the job to `running`, race the executor goroutine
against the deadline, then record exactly one terminal status: `completed` on
success, `failed` with the error text, or `cancelled` with `ctx.Err()`'s text
when the deadline elapses first (the executor keeps running; its eventual result
is ignored).  `tRun`/`tEnd` are the two `time.Now()` instants.  Also returns the
log of `(status, errText)` updates applied to `jobID`. -/
def processJob (s : MemoryStore) (jobID : String) (oc : ExecOutcome)
    (tRun tEnd : Nat) : MemoryStore × List (Status × String) :=
  let s1 := updateLogged s [] jobID .running "" tRun
  match oc with
  | .done none => updateLogged s1.1 s1.2 jobID .completed "" tEnd
  | .done (some e) => updateLogged s1.1 s1.2 jobID .failed e tEnd
  | .timeout _ => updateLogged s1.1 s1.2 jobID .cancelled DeadlineExceeded tEnd

/-- The drain performed by `runWorker`'s `for jobID := range p.jobs` after
`close(p.jobs)`: the remaining buffered identifiers are processed in FIFO order.
`outs` gives each job's race outcome, `tf` its two timestamps.  Workers write
disjoint store keys for distinct identifiers, so this sequentialization has the
same per-identifier effect as any worker interleaving. -/
def drainAll (s : MemoryStore) (pend : List String) (outs : String → ExecOutcome)
    (tf : String → Nat × Nat) : MemoryStore :=
  match pend with
  | [] => s
  | id :: rest => drainAll (processJob s id (outs id) (tf id).1 (tf id).2).1 rest outs tf

/-- Operation `Pool.Stop`: `close(p.jobs)` — a panic (`none`) if the channel is already
closed — then `p.wg.Wait()`.  With at least one worker, the workers drain the
remaining buffer and exit, so `Stop` returns with the queue empty and every
worker gone; with zero workers `wg.Wait()` returns immediately and the buffered
identifiers are never read. -/
def Pool.Stop (p : Pool) (outs : String → ExecOutcome) (tf : String → Nat × Nat) :
    Option Pool :=
  if p.jobs.closed then none
  else if p.workers = 0 then
    some { p with jobs := { p.jobs with closed := true } }
  else
    some { p with
      jobs := { buf := [], cap := p.jobs.cap, closed := true }
      store := drainAll p.store p.jobs.buf outs tf
      workers := 0 }

/-- Iterated `Submit`, threading the pool; a `none` entry models a panic, which
aborts the sequence. -/
def submitSeq : Pool → List String → List (Option Bool) × Pool
  | p, [] => ([], p)
  | p, id :: rest =>
    match p.Submit id with
    | none => ([none], p)
    | some (b, p') =>
      let r := submitSeq p' rest
      (some b :: r.1, r.2)

/-- The legal transitions of the spec's per-job state machine:
`queued → running → one of completed/failed/cancelled`. -/
def nextOk : Status → Status → Bool
  | .queued, .running => true
  | .running, .completed => true
  | .running, .failed => true
  | .running, .cancelled => true
  | _, _ => false

/-- The scenario of `TestGetReturnsCopy`: `Get` a record, apply an arbitrary
caller-side mutation `f` to the returned copy, then `Get` the same identifier
again; yields (the mutated copy, the re-fetched record). -/
def getMutateRefetch (s : MemoryStore) (id : String) (f : Job → Job) :
    Option (Job × Job) :=
  match s.Get id with
  | .error _ => none
  | .ok copy =>
    let mutated := f copy
    match s.Get id with
    | .error _ => none
    | .ok orig => some (mutated, orig)

/-! Map and store lemmas -/

theorem mapLookup_insert_self (m : List (String × Job)) (k : String) (v : Job) :
    mapLookup (mapInsert m k v) k = some v := by
  induction m with
  | nil => simp [mapInsert, mapLookup]
  | cons hd tl ih =>
    obtain ⟨k0, v0⟩ := hd
    by_cases hk : k0 = k
    · simp [mapInsert, hk, mapLookup]
    · simp [mapInsert, hk, mapLookup, ih]

theorem mapLookup_insert_other (m : List (String × Job)) (k k' : String) (v : Job)
    (h : k' ≠ k) : mapLookup (mapInsert m k v) k' = mapLookup m k' := by
  have hk : k ≠ k' := Ne.symm h
  induction m with
  | nil => simp [mapInsert, mapLookup, hk]
  | cons hd tl ih =>
    obtain ⟨k0, v0⟩ := hd
    by_cases hk0 : k0 = k
    · subst hk0
      simp [mapInsert, mapLookup, hk]
    · simp [mapInsert, hk0, mapLookup, ih]

theorem updateStatus_found (s : MemoryStore) (id : String) (j : Job) (st : Status)
    (msg : String) (now : Nat) (h : mapLookup s.jobs id = some j) :
    s.UpdateStatus id st msg now
      = (⟨mapInsert s.jobs id { j with status := st, error := msg, updatedAt := now }⟩,
         none) := by
  simp [MemoryStore.UpdateStatus, h]

theorem updateStatus_lookup_self (s : MemoryStore) (id : String) (j : Job)
    (st : Status) (msg : String) (now : Nat) (h : mapLookup s.jobs id = some j) :
    mapLookup (s.UpdateStatus id st msg now).1.jobs id
      = some { j with status := st, error := msg, updatedAt := now } := by
  simp [updateStatus_found s id j st msg now h, mapLookup_insert_self]

theorem updateStatus_lookup_other (s : MemoryStore) (id k : String)
    (st : Status) (msg : String) (now : Nat) (h : k ≠ id) :
    mapLookup (s.UpdateStatus id st msg now).1.jobs k = mapLookup s.jobs k := by
  unfold MemoryStore.UpdateStatus
  cases hl : mapLookup s.jobs id with
  | none => rfl
  | some j => simp [mapLookup_insert_other _ _ _ _ h]

/-! Lemmas about processJob -/

theorem processJob_lookup_self (s : MemoryStore) (id : String) (j : Job)
    (oc : ExecOutcome) (tRun tEnd : Nat) (h : mapLookup s.jobs id = some j) :
    mapLookup (processJob s id oc tRun tEnd).1.jobs id
      = some { j with status := oc.status, error := oc.errText, updatedAt := tEnd } := by
  have h1 : mapLookup ((s.UpdateStatus id .running "" tRun).1).jobs id
      = some { j with status := .running, error := "", updatedAt := tRun } :=
    updateStatus_lookup_self s id j .running "" tRun h
  cases oc with
  | done res =>
    cases res with
    | none =>
      simpa [processJob, updateLogged, ExecOutcome.status, ExecOutcome.errText] using
        updateStatus_lookup_self _ id _ .completed "" tEnd h1
    | some e =>
      simpa [processJob, updateLogged, ExecOutcome.status, ExecOutcome.errText] using
        updateStatus_lookup_self _ id _ .failed e tEnd h1
  | timeout ev =>
    simpa [processJob, updateLogged, ExecOutcome.status, ExecOutcome.errText,
      DeadlineExceeded] using
      updateStatus_lookup_self _ id _ .cancelled DeadlineExceeded tEnd h1

theorem processJob_lookup_other (s : MemoryStore) (id jid : String)
    (oc : ExecOutcome) (tRun tEnd : Nat) (h : id ≠ jid) :
    mapLookup (processJob s jid oc tRun tEnd).1.jobs id = mapLookup s.jobs id := by
  cases oc with
  | done res =>
    cases res with
    | none =>
      simp [processJob, updateLogged, updateStatus_lookup_other _ _ _ _ _ _ h]
    | some e =>
      simp [processJob, updateLogged, updateStatus_lookup_other _ _ _ _ _ _ h]
  | timeout ev =>
    simp [processJob, updateLogged, updateStatus_lookup_other _ _ _ _ _ _ h]

theorem processJob_log (s : MemoryStore) (id : String) (oc : ExecOutcome)
    (tRun tEnd : Nat) :
    (processJob s id oc tRun tEnd).2 = [(.running, ""), (oc.status, oc.errText)] := by
  cases oc with
  | done res =>
    cases res <;> rfl
  | timeout ev => rfl

theorem execOutcome_status_terminal (oc : ExecOutcome) :
    oc.status.isTerminal = true := by
  cases oc with
  | done res => cases res <;> rfl
  | timeout ev => rfl

theorem nextOk_running_status (oc : ExecOutcome) :
    nextOk .running oc.status = true := by
  cases oc with
  | done res => cases res <;> rfl
  | timeout ev => rfl

/-! Drain lemmas -/

theorem drainAll_lookup_not_mem (pend : List String) (outs : String → ExecOutcome)
    (tf : String → Nat × Nat) :
    ∀ (s : MemoryStore) (id : String), id ∉ pend →
      mapLookup (drainAll s pend outs tf).jobs id = mapLookup s.jobs id := by
  induction pend with
  | nil => intro s id _; rfl
  | cons a rest ih =>
    intro s id h
    have ha : id ≠ a := fun he => h (he ▸ List.mem_cons_self a rest)
    have hr : id ∉ rest := fun hm => h (List.mem_cons_of_mem a hm)
    calc mapLookup (drainAll (processJob s a (outs a) (tf a).1 (tf a).2).1 rest outs tf).jobs id
        = mapLookup (processJob s a (outs a) (tf a).1 (tf a).2).1.jobs id := ih _ id hr
      _ = mapLookup s.jobs id := processJob_lookup_other _ id a _ _ _ ha

theorem drainAll_lookup_mem (outs : String → ExecOutcome) (tf : String → Nat × Nat) :
    ∀ (pend : List String) (s : MemoryStore) (id : String) (j : Job),
      id ∈ pend → mapLookup s.jobs id = some j →
      ∃ j', mapLookup (drainAll s pend outs tf).jobs id = some j' ∧
        j'.status = (outs id).status ∧ j'.error = (outs id).errText := by
  intro pend
  induction pend with
  | nil => intro s id j hmem _; cases hmem
  | cons a rest ih =>
    intro s id j hmem hlk
    by_cases hr : id ∈ rest
    · by_cases ha : id = a
      · subst ha
        exact ih _ id _ hr (processJob_lookup_self s id j (outs id) (tf id).1 (tf id).2 hlk)
      · have : mapLookup (processJob s a (outs a) (tf a).1 (tf a).2).1.jobs id
            = some j := by rw [processJob_lookup_other _ id a _ _ _ ha]; exact hlk
        exact ih _ id j hr this
    · have ha : id = a := by
        rcases List.mem_cons.mp hmem with h | h
        · exact h
        · exact absurd h hr
      subst ha
      have key : mapLookup (drainAll (processJob s id (outs id) (tf id).1 (tf id).2).1 rest outs tf).jobs id = some { j with status := (outs id).status, error := (outs id).errText, updatedAt := (tf id).2 } := by
        rw [drainAll_lookup_not_mem rest outs tf _ id hr]
        exact processJob_lookup_self s id j (outs id) (tf id).1 (tf id).2 hlk
      exact ⟨_, key, rfl, rfl⟩

theorem drainAll_lookup_nodup (outs : String → ExecOutcome) (tf : String → Nat × Nat) :
    ∀ (pend : List String) (s : MemoryStore) (id : String) (j : Job),
      pend.Nodup → id ∈ pend → mapLookup s.jobs id = some j →
      mapLookup (drainAll s pend outs tf).jobs id
        = some { j with status := (outs id).status, error := (outs id).errText, updatedAt := (tf id).2 } := by
  intro pend
  induction pend with
  | nil => intro s id j _ hmem _; cases hmem
  | cons a rest ih =>
    intro s id j hnd hmem hlk
    have hna : a ∉ rest := (List.nodup_cons.mp hnd).1
    have hnr : rest.Nodup := (List.nodup_cons.mp hnd).2
    by_cases ha : id = a
    · subst ha
      show mapLookup (drainAll (processJob s id (outs id) (tf id).1 (tf id).2).1 rest outs tf).jobs id = _
      rw [drainAll_lookup_not_mem rest outs tf _ id hna]
      exact processJob_lookup_self s id j (outs id) (tf id).1 (tf id).2 hlk
    · have hr : id ∈ rest := by
        rcases List.mem_cons.mp hmem with h | h
        · exact absurd h ha
        · exact h
      have : mapLookup (processJob s a (outs a) (tf a).1 (tf a).2).1.jobs id = some j := by
        rw [processJob_lookup_other _ id a _ _ _ ha]; exact hlk
      exact ih _ id j hnr hr this

/-! Submit lemmas -/

theorem submitSeq_accepts (ids : List String) :
    ∀ p : Pool, p.jobs.closed = false →
      (p.jobs.buf.length : Int) + ids.length ≤ p.jobs.cap →
      submitSeq p ids
        = (List.replicate ids.length (some true),
           { p with jobs := { p.jobs with buf := p.jobs.buf ++ ids } }) := by
  induction ids with
  | nil =>
    intro p hcl _
    simp [submitSeq]
  | cons a rest ih =>
    intro p hcl hle
    have hlt : (p.jobs.buf.length : Int) < p.jobs.cap := by
      simp only [List.length_cons] at hle
      push_cast at hle
      omega
    have hsub : p.Submit a
        = some (true, { p with jobs := { p.jobs with buf := p.jobs.buf ++ [a] } }) := by
      simp [Pool.Submit, Chan.trySend, hcl, hlt]
    have hle' : (({ p with jobs := { p.jobs with buf := p.jobs.buf ++ [a] } } : Pool).jobs.buf.length : Int) + rest.length ≤ ({ p with jobs := { p.jobs with buf := p.jobs.buf ++ [a] } } : Pool).jobs.cap := by
      simp only [List.length_cons, List.length_append, List.length_singleton,
        List.length_nil] at hle ⊢
      push_cast at hle ⊢
      omega
    have ih' := ih { p with jobs := { p.jobs with buf := p.jobs.buf ++ [a] } } hcl hle'
    simp [submitSeq, hsub, ih', List.replicate_succ]

/-! Sample data used by concrete witnesses and counterexamples -/

/-- Sample queued job. -/
def jx : Job :=
  { id := "x", task := "t", status := .queued, error := "", createdAt := 0, updatedAt := 0 }

/-- Sample job already in a terminal state. -/
def jdone : Job :=
  { id := "d", task := "t", status := .completed, error := "", createdAt := 0, updatedAt := 3 }

/-- Zero-worker pool over a store holding `jx` (as built by `TestPoolQueueFull`;
also the pool `NewPool` returns for this configuration). -/
def poolZW : Pool :=
  { jobs := { buf := [], cap := 1, closed := false }
    store := MemoryStore.new.Save jx
    cfg := { numWorkers := 0, queueSize := 1, jobTimeout := 0 }
    workers := 0 }

/-- One-worker pool whose queue holds `"x"`, over a store holding `jx`. -/
def poolOneWorker : Pool :=
  { jobs := { buf := ["x"], cap := 1, closed := false }
    store := MemoryStore.new.Save jx
    cfg := { numWorkers := 1, queueSize := 1, jobTimeout := 1000000000 }
    workers := 1 }

/-- Pool with a zero-capacity queue (the pool `NewPool` returns for this
configuration). -/
def poolCapZero : Pool :=
  { jobs := { buf := [], cap := 0, closed := false }
    store := MemoryStore.new
    cfg := { numWorkers := 0, queueSize := 0, jobTimeout := 0 }
    workers := 0 }

/-- Zero-worker pool used for the stopped-pool scenario (the pool `NewPool`
returns for this configuration). -/
def poolW10 : Pool :=
  { jobs := { buf := [], cap := 1, closed := false }
    store := MemoryStore.new
    cfg := { numWorkers := 0, queueSize := 1, jobTimeout := 0 }
    workers := 0 }

/-- Capacity-2 pool over an empty store with no workers to dequeue (the pool
`NewPool` returns for this configuration). -/
def poolCap2 : Pool :=
  { jobs := { buf := [], cap := 2, closed := false }
    store := MemoryStore.new
    cfg := { numWorkers := 0, queueSize := 2, jobTimeout := 0 }
    workers := 0 }

/-- The pool `poolW10` after `Stop` has closed its channel. -/
def poolW10s : Pool := { poolW10 with jobs := { buf := [], cap := 1, closed := true } }

/-! Claims -/

/-- C1: Submit is a non-blocking, fail-fast enqueue.  For a pool with an open,
empty queue of capacity C whose workers never dequeue, each of the first C
Submit calls returns true; the (C+1)-th call returns false immediately and
leaves the pool unchanged; and in general (third conjunct) Submit returns true
iff the queue currently holds fewer identifiers than its capacity. -/
theorem pool_submit_fail_fast (p : Pool) (C : Nat) (ids : List String) (y : String)
    (hcl : p.jobs.closed = false) (hbuf : p.jobs.buf = [])
    (hcap : p.jobs.cap = (C : Int)) (hlen : ids.length = C) :
    (submitSeq p ids).1 = List.replicate C (some true) ∧
    (submitSeq p ids).2.Submit y = some (false, (submitSeq p ids).2) ∧
    (∀ (q : Pool) (id : String), q.jobs.closed = false →
      ((q.Submit id).map Prod.fst = some true ↔ (q.jobs.buf.length : Int) < q.jobs.cap)) := by
  have hbound : (p.jobs.buf.length : Int) + ids.length ≤ p.jobs.cap := by
    rw [hbuf, hcap, hlen]; simp
  have hs := submitSeq_accepts ids p hcl hbound
  refine ⟨?_, ?_, ?_⟩
  · rw [hs, hlen]
  · rw [hs]
    have hfull : ¬((p.jobs.buf.length : Int) + (ids.length : Int) < p.jobs.cap) := by
      rw [hbuf, hcap, hlen]
      norm_num
    simp [Pool.Submit, Chan.trySend, hcl, hfull]
  · intro q id hq
    by_cases hql : (q.jobs.buf.length : Int) < q.jobs.cap <;>
      simp [Pool.Submit, Chan.trySend, hq, hql]

/-- Witness for C1 at C = 2: both submissions into a capacity-2 queue with no
workers are accepted, and the third is rejected.  `poolCap2` is exactly the
pool `NewPool` returns for its configuration. -/
theorem pool_submit_fail_fast_witness :
    NewPool MemoryStore.new { numWorkers := 0, queueSize := 2, jobTimeout := 0 } = some poolCap2 ∧
    (["a", "b"] : List String).length = 2 ∧
    (submitSeq poolCap2 ["a", "b"]).1 = List.replicate 2 (some true) ∧
    (submitSeq poolCap2 ["a", "b"]).2.Submit "c" = some (false, (submitSeq poolCap2 ["a", "b"]).2) :=
  ⟨rfl, rfl,
   (pool_submit_fail_fast poolCap2 2 ["a", "b"] "c" rfl rfl rfl rfl).1,
   (pool_submit_fail_fast poolCap2 2 ["a", "b"] "c" rfl rfl rfl rfl).2.1⟩

/-- C2: per-job status transitions are monotonic.  For a job with a stored
record in status queued whose identifier sits (once — identifiers are unique)
in the pending queue: the worker's update log for the job is exactly
running followed by one terminal status, the sequence queued → running →
terminal is a chain of legal transitions, and after the entire drain the job's
record holds exactly that terminal status — it is never moved out of it or back
to queued or running. -/
theorem job_status_monotonic (s : MemoryStore) (pend : List String)
    (outs : String → ExecOutcome) (tf : String → Nat × Nat) (id : String) (j : Job)
    (hnd : pend.Nodup) (hmem : id ∈ pend) (hlk : mapLookup s.jobs id = some j)
    (hq : j.status = .queued) :
    List.Chain' (fun a b => nextOk a b = true)
      (j.status :: ((processJob s id (outs id) (tf id).1 (tf id).2).2.map Prod.fst)) ∧
    ((processJob s id (outs id) (tf id).1 (tf id).2).2.map Prod.fst)
      = [.running, (outs id).status] ∧
    ((outs id).status).isTerminal = true ∧
    mapLookup (drainAll s pend outs tf).jobs id
      = some { j with status := (outs id).status, error := (outs id).errText, updatedAt := (tf id).2 } := by
  have hlog := processJob_log s id (outs id) (tf id).1 (tf id).2
  refine ⟨?_, ?_, execOutcome_status_terminal _,
    drainAll_lookup_nodup outs tf pend s id j hnd hmem hlk⟩
  · rw [hlog, hq]
    simp only [List.map_cons, List.map_nil]
    exact List.chain'_cons.mpr ⟨rfl, List.chain'_cons.mpr ⟨nextOk_running_status _, by simp⟩⟩
  · rw [hlog]
    rfl

/-- Witness for C2: a single queued job "x", executor succeeds; after the drain
the stored record is completed and was reached through queued → running. -/
theorem job_status_monotonic_witness :
    (["x"] : List String).Nodup ∧ ("x" ∈ (["x"] : List String)) ∧
    mapLookup (MemoryStore.new.Save jx).jobs "x" = some jx ∧ jx.status = .queued ∧
    mapLookup (drainAll (MemoryStore.new.Save jx) ["x"] (fun _ => .done none) (fun _ => (1, 2))).jobs "x"
      = some { jx with status := .completed, error := "", updatedAt := 2 } :=
  ⟨by simp, by simp, rfl, rfl,
   (job_status_monotonic (MemoryStore.new.Save jx) ["x"] (fun _ => .done none)
     (fun _ => (1, 2)) "x" jx (by simp) (by simp) rfl rfl).2.2.2⟩

/-- C3: the deadline race records exactly one of three outcomes.  For a stored
job: executor success before the deadline yields completed with empty error
text; executor error yields failed with the executor's error text; deadline
first yields cancelled with the deadline-exceeded text, and the result is
independent of the abandoned executor's eventual result (it is discarded, the
executor is not terminated).  The update log is always running followed by the
single terminal update — no retry occurs. -/
theorem processJob_deadline_race (s : MemoryStore) (id : String) (j : Job)
    (tRun tEnd : Nat) (hlk : mapLookup s.jobs id = some j) :
    mapLookup (processJob s id (.done none) tRun tEnd).1.jobs id = some { j with status := .completed, error := "", updatedAt := tEnd } ∧
    (∀ e, mapLookup (processJob s id (.done (some e)) tRun tEnd).1.jobs id = some { j with status := .failed, error := e, updatedAt := tEnd }) ∧
    (∀ ev, mapLookup (processJob s id (.timeout ev) tRun tEnd).1.jobs id = some { j with status := .cancelled, error := DeadlineExceeded, updatedAt := tEnd }) ∧
    (∀ ev ev', processJob s id (.timeout ev) tRun tEnd = processJob s id (.timeout ev') tRun tEnd) ∧
    (∀ oc : ExecOutcome, (processJob s id oc tRun tEnd).2 = [(.running, ""), (oc.status, oc.errText)]) := by
  refine ⟨?_, ?_, ?_, fun ev ev' => rfl, fun oc => processJob_log s id oc tRun tEnd⟩
  · exact processJob_lookup_self s id j (.done none) tRun tEnd hlk
  · intro e
    exact processJob_lookup_self s id j (.done (some e)) tRun tEnd hlk
  · intro ev
    exact processJob_lookup_self s id j (.timeout ev) tRun tEnd hlk

/-- Witness for C3: a timed-out job is recorded cancelled with the
deadline-exceeded text, with the abandoned executor's late result discarded. -/
theorem processJob_deadline_race_witness :
    mapLookup (MemoryStore.new.Save jx).jobs "x" = some jx ∧
    mapLookup (processJob (MemoryStore.new.Save jx) "x" (.timeout (some "late")) 1 2).1.jobs "x" = some { jx with status := .cancelled, error := DeadlineExceeded, updatedAt := 2 } :=
  ⟨rfl,
   (processJob_deadline_race (MemoryStore.new.Save jx) "x" jx 1 2 rfl).2.2.1 (some "late")⟩

/-- C4 counterexample: the claim fails on a pool with zero workers.  "x" is
successfully submitted, Stop returns (wg.Wait on a zero counter), yet "x" is
still queued — non-terminal — because no worker exists to drain the channel. -/
theorem stop_zero_workers_cex :
    poolZW.Submit "x" = some (true, { poolZW with jobs := { buf := ["x"], cap := 1, closed := false } }) ∧
    ({ poolZW with jobs := { buf := ["x"], cap := 1, closed := false } } : Pool).Stop (fun _ => .done none) (fun _ => (1, 2)) = some { poolZW with jobs := { buf := ["x"], cap := 1, closed := true } } ∧
    mapLookup ({ poolZW with jobs := { buf := ["x"], cap := 1, closed := true } } : Pool).store.jobs "x" = some jx ∧
    jx.status.isTerminal = false :=
  ⟨rfl, rfl, rfl, rfl⟩

/-- C4 (amended): provided the pool has at least one worker, Stop is a blocking
graceful shutdown — it closes the channel, the workers drain every buffered
identifier (each stored record is driven to a terminal status), and Stop
returns only once the queue is empty and every worker has exited. -/
theorem stop_graceful_drain (p : Pool) (outs : String → ExecOutcome)
    (tf : String → Nat × Nat) (hcl : p.jobs.closed = false) (hw : p.workers ≠ 0) :
    ∃ q, p.Stop outs tf = some q ∧ q.jobs.buf = [] ∧ q.jobs.closed = true ∧
      q.workers = 0 ∧
      ∀ id j, id ∈ p.jobs.buf → mapLookup p.store.jobs id = some j →
        ∃ j', mapLookup q.store.jobs id = some j' ∧ j'.status.isTerminal = true := by
  have hstop : p.Stop outs tf = some { p with jobs := { buf := [], cap := p.jobs.cap, closed := true }, store := drainAll p.store p.jobs.buf outs tf, workers := 0 } := by
    simp [Pool.Stop, hcl, hw]
  refine ⟨_, hstop, rfl, rfl, rfl, ?_⟩
  intro id j hmem hlk
  obtain ⟨j', h1, h2, _⟩ := drainAll_lookup_mem outs tf p.jobs.buf p.store id j hmem hlk
  exact ⟨j', h1, by rw [h2]; exact execOutcome_status_terminal _⟩

/-- Witness for the amended C4: a one-worker pool with "x" buffered drains it to
a terminal status on Stop. -/
theorem stop_graceful_drain_witness :
    poolOneWorker.jobs.closed = false ∧ poolOneWorker.workers ≠ 0 ∧
    (∃ q, poolOneWorker.Stop (fun _ => .done none) (fun _ => (1, 2)) = some q ∧ q.jobs.buf = [] ∧ q.jobs.closed = true ∧ q.workers = 0 ∧ ∀ id j, id ∈ poolOneWorker.jobs.buf → mapLookup poolOneWorker.store.jobs id = some j → ∃ j', mapLookup q.store.jobs id = some j' ∧ j'.status.isTerminal = true) :=
  ⟨rfl, by decide,
   stop_graceful_drain poolOneWorker (fun _ => .done none) (fun _ => (1, 2)) rfl (by decide)⟩

/-- C5 counterexample: NewPool with numWorkers = 0 and jobTimeout = 0 — both
invalid according to the spec — still returns a started pool (zero workers,
open empty queue) rather than any caller-visible failure. -/
theorem newPool_no_validation_cex :
    NewPool MemoryStore.new { numWorkers := 0, queueSize := 5, jobTimeout := 0 } = some { jobs := { buf := [], cap := 5, closed := false }, store := MemoryStore.new, cfg := { numWorkers := 0, queueSize := 5, jobTimeout := 0 }, workers := 0 } :=
  rfl

/-- C5 (amended): NewPool performs no validation of the worker count or the
deadline.  For such an invalid configuration with a non-negative queue
capacity it returns a started pool with an open empty queue over the given
store; numWorkers < 1 simply yields a pool with zero workers.  The only
construction-time failure is the runtime panic of `make(chan string, n)` for a
negative capacity, which is independent of workers and deadline. -/
theorem newPool_no_validation (s : MemoryStore) (cfg : Config)
    (hbad : cfg.numWorkers < 1 ∨ cfg.jobTimeout ≤ 0) :
    (0 ≤ cfg.queueSize →
      ∃ p, NewPool s cfg = some p ∧ p.jobs.closed = false ∧ p.jobs.buf = [] ∧
        p.store = s ∧ p.workers = cfg.numWorkers.toNat ∧
        (cfg.numWorkers < 1 → p.workers = 0)) ∧
    (cfg.queueSize < 0 → NewPool s cfg = none) := by
  constructor
  · intro hq
    have hne : ¬cfg.queueSize < 0 := not_lt.mpr hq
    refine ⟨{ jobs := { buf := [], cap := cfg.queueSize, closed := false }, store := s, cfg := cfg, workers := cfg.numWorkers.toNat }, ?_, rfl, rfl, rfl, rfl, fun h => ?_⟩
    · simp [NewPool, hne]
    · show cfg.numWorkers.toNat = 0
      omega
  · intro hq
    simp [NewPool, hq]

/-- Witness for the amended C5: the invalid configuration with zero workers and
zero deadline is accepted and yields a started pool with zero workers. -/
theorem newPool_no_validation_witness :
    ({ numWorkers := 0, queueSize := 5, jobTimeout := 0 } : Config).numWorkers < 1 ∧
    (0 : Int) ≤ ({ numWorkers := 0, queueSize := 5, jobTimeout := 0 } : Config).queueSize ∧
    (∃ p, NewPool MemoryStore.new { numWorkers := 0, queueSize := 5, jobTimeout := 0 } = some p ∧ p.jobs.closed = false ∧ p.jobs.buf = [] ∧ p.store = MemoryStore.new ∧ p.workers = ({ numWorkers := 0, queueSize := 5, jobTimeout := 0 } : Config).numWorkers.toNat ∧ (({ numWorkers := 0, queueSize := 5, jobTimeout := 0 } : Config).numWorkers < 1 → p.workers = 0)) :=
  ⟨by decide, by decide,
   (newPool_no_validation MemoryStore.new { numWorkers := 0, queueSize := 5, jobTimeout := 0 } (Or.inl (by decide))).1 (by decide)⟩

/-- C6: Get returns an independent value copy.  For a stored identifier, the
TestGetReturnsCopy scenario — Get, mutate the returned copy arbitrarily, Get
again — yields the original stored record unchanged by the mutation; for an
absent identifier Get returns the not-found error. -/
theorem get_returns_value_copy (s : MemoryStore) (id : String) :
    (∀ j, mapLookup s.jobs id = some j →
      ∀ f : Job → Job, getMutateRefetch s id f = some (f j, j)) ∧
    (mapLookup s.jobs id = none → s.Get id = Except.error ErrNotFound) := by
  constructor
  · intro j hj f
    simp [getMutateRefetch, MemoryStore.Get, hj]
  · intro h
    simp [MemoryStore.Get, h]

/-- Witness for C6: mutating the copy of "x" to completed and re-fetching shows
the stored record still queued. -/
theorem get_returns_value_copy_witness :
    mapLookup (MemoryStore.new.Save jx).jobs "x" = some jx ∧
    getMutateRefetch (MemoryStore.new.Save jx) "x" (fun j => { j with status := .completed }) = some ({ jx with status := .completed }, jx) :=
  ⟨rfl,
   (get_returns_value_copy (MemoryStore.new.Save jx) "x").1 jx rfl
     (fun j => { j with status := .completed })⟩

/-- C7: UpdateStatus succeeds exactly when the identifier is present.  On a
present identifier it returns no error and overwrites exactly status, error
text and update timestamp (identifier, task and creation timestamp are kept by
the record update), leaving every other key unchanged; on an absent identifier
it returns the not-found error and the table is returned untouched. -/
theorem updateStatus_contract (s : MemoryStore) (id : String) (st : Status)
    (msg : String) (now : Nat) :
    (∀ j, mapLookup s.jobs id = some j →
      (s.UpdateStatus id st msg now).2 = none ∧
      mapLookup (s.UpdateStatus id st msg now).1.jobs id = some { j with status := st, error := msg, updatedAt := now } ∧
      ∀ k, k ≠ id → mapLookup (s.UpdateStatus id st msg now).1.jobs k = mapLookup s.jobs k) ∧
    (mapLookup s.jobs id = none → s.UpdateStatus id st msg now = (s, some ErrNotFound)) := by
  constructor
  · intro j hj
    exact ⟨by simp [MemoryStore.UpdateStatus, hj],
      updateStatus_lookup_self s id j st msg now hj,
      fun k hk => updateStatus_lookup_other s id k st msg now hk⟩
  · intro h
    simp [MemoryStore.UpdateStatus, h]

/-- Witness for C7: updating "x" to running succeeds and rewrites exactly the
status, error and update-timestamp fields. -/
theorem updateStatus_contract_witness :
    mapLookup (MemoryStore.new.Save jx).jobs "x" = some jx ∧
    mapLookup ((MemoryStore.new.Save jx).UpdateStatus "x" .running "" 5).1.jobs "x" = some { jx with status := .running, error := "", updatedAt := 5 } :=
  ⟨rfl,
   ((updateStatus_contract (MemoryStore.new.Save jx) "x" .running "" 5).1 jx rfl).2.1⟩

/-- C8: a rejected submission mutates nothing.  Whenever Submit returns false
the pool — its queue and its status table — is exactly as before; in particular
every job record is untouched. -/
theorem submit_reject_frame (p : Pool) (id : String) (p' : Pool)
    (h : p.Submit id = some (false, p')) :
    p' = p ∧ ∀ k, mapLookup p'.store.jobs k = mapLookup p.store.jobs k := by
  have hp : p' = p := by
    by_cases hc : p.jobs.closed
    · simp [Pool.Submit, Chan.trySend, hc] at h
    · by_cases hl : (p.jobs.buf.length : Int) < p.jobs.cap
      · simp [Pool.Submit, Chan.trySend, hc, hl] at h
      · simp [Pool.Submit, Chan.trySend, hc, hl] at h
        exact h.symm
  exact ⟨hp, fun k => by rw [hp]⟩

/-- Witness for C8: a zero-capacity pool rejects "a" and is left unchanged. -/
theorem submit_reject_frame_witness :
    poolCapZero.Submit "a" = some (false, poolCapZero) ∧
    (poolCapZero = poolCapZero ∧ ∀ k, mapLookup poolCapZero.store.jobs k = mapLookup poolCapZero.store.jobs k) :=
  ⟨rfl, submit_reject_frame poolCapZero "a" poolCapZero rfl⟩

/-- C9: the status table enforces no transition discipline.  For a stored
record already in a terminal state, UpdateStatus with any status value at all —
including queued or running — succeeds and overwrites the stored status and
error text; monotonicity is upheld only by the worker's calling pattern. -/
theorem updateStatus_no_discipline (s : MemoryStore) (id : String) (j : Job)
    (st : Status) (msg : String) (now : Nat)
    (hlk : mapLookup s.jobs id = some j) (hterm : j.status.isTerminal = true) :
    (s.UpdateStatus id st msg now).2 = none ∧
    mapLookup (s.UpdateStatus id st msg now).1.jobs id = some { j with status := st, error := msg, updatedAt := now } := by
  exact ⟨by simp [MemoryStore.UpdateStatus, hlk],
    updateStatus_lookup_self s id j st msg now hlk⟩

/-- Witness for C9: a completed job is moved back to queued by UpdateStatus,
which succeeds. -/
theorem updateStatus_no_discipline_witness :
    mapLookup (MemoryStore.new.Save jdone).jobs "d" = some jdone ∧
    jdone.status.isTerminal = true ∧
    mapLookup ((MemoryStore.new.Save jdone).UpdateStatus "d" .queued "" 7).1.jobs "d" = some { jdone with status := .queued, error := "", updatedAt := 7 } :=
  ⟨rfl, rfl,
   (updateStatus_no_discipline (MemoryStore.new.Save jdone) "d" jdone .queued "" 7 rfl rfl).2⟩

/-- C10: after Stop has closed the job channel, a subsequent Submit panics
(send on a closed channel — select chooses the ready, panicking send over
default) and a second Stop panics (close of a closed channel); both are
modelled as `none`. -/
theorem submit_stop_panic_after_stop (p q : Pool) (outs : String → ExecOutcome)
    (tf : String → Nat × Nat) (id : String) (h : p.Stop outs tf = some q) :
    q.Submit id = none ∧ q.Stop outs tf = none := by
  have hcl : q.jobs.closed = true := by
    by_cases h1 : p.jobs.closed
    · simp [Pool.Stop, h1] at h
    · by_cases h2 : p.workers = 0
      · simp [Pool.Stop, h1, h2] at h
        subst h
        rfl
      · simp [Pool.Stop, h1, h2] at h
        subst h
        rfl
  constructor
  · simp [Pool.Submit, Chan.trySend, hcl]
  · simp [Pool.Stop, hcl]

/-- Witness for C10: stopping a fresh pool succeeds once; on the stopped pool,
Submit and a second Stop both panic. -/
theorem submit_stop_panic_after_stop_witness :
    poolW10.Stop (fun _ => .done none) (fun _ => (0, 0)) = some poolW10s ∧
    (poolW10s.Submit "a" = none ∧ poolW10s.Stop (fun _ => .done none) (fun _ => (0, 0)) = none) :=
  ⟨rfl,
   submit_stop_panic_after_stop poolW10 poolW10s (fun _ => .done none) (fun _ => (0, 0)) "a" rfl⟩

end JobQueue
